import Mathlib

/-!
Shallow embedding of the MQTT binary codec (package `mqtt`, file
`messages.go`) together with the helper definitions its code calls.
Byte streams are modelled as `List Nat` whose elements are read modulo
256; the remaining-length budget threaded through every decoder is a
`Nat`.  Failures (both returned errors and the internal faults that the
Go code converts to errors with a `recover` boundary) are modelled with
`Except MqttError` on the decode side; on the encode side `EncResult`
records the final sink contents and distinguishes a returned error from
a runtime fault (an out-of-range slice index), both of which leave the
sink untouched.
-/

namespace Mqtt

/-- The error values of the codec, from the spec's error-handling design:
BadQosError, BadMsgTypeError, BadWillQosError, BadReturnCodeError,
MalformedLengthError, TruncatedStreamError. -/
inductive MqttError where
  | badQos
  | badMsgType
  | badWillQos
  | badReturnCode
  | malformedLength
  | truncatedStream
  deriving DecidableEq

/-- Outcome of an encode call: the sink contents on success, or a returned
error, or a runtime fault (index out of range), each with the sink as it
stands at that point. -/
inductive EncResult where
  | ok (sink : List Nat)
  | err (e : MqttError) (sink : List Nat)
  | fault (sink : List Nat)
  deriving DecidableEq

/-- Modelled from the spec: QoS levels (Go type `QosLevel`, a small unsigned
integer, represented here as `Nat`): 0, 1 and 2 are valid, 3 is
reserved/invalid. -/
def QosLevel.IsValid (qos : Nat) : Bool :=
  decide (qos ≤ 2)

/-- Modelled from the spec: QoS levels 1 and 2 carry a 16-bit message
identifier. -/
def QosLevel.HasId (qos : Nat) : Bool :=
  decide (qos = 1) || decide (qos = 2)

/-- Message types (Go type `MessageType`, represented here as `Nat`):
`MsgConnect = 1` through `MsgDisconnect = 14`, from the constant block of
`messages.go`. -/
def MsgConnect : Nat := 1
def MsgConnAck : Nat := 2
def MsgPublish : Nat := 3
def MsgPubAck : Nat := 4
def MsgPubRec : Nat := 5
def MsgPubRel : Nat := 6
def MsgPubComp : Nat := 7
def MsgSubscribe : Nat := 8
def MsgSubAck : Nat := 9
def MsgUnsubscribe : Nat := 10
def MsgUnsubAck : Nat := 11
def MsgPingReq : Nat := 12
def MsgPingResp : Nat := 13
def MsgDisconnect : Nat := 14
def msgTypeFirstInvalid : Nat := 15

/-- `MessageType.IsValid` from `messages.go`:
`mt >= MsgConnect && mt < msgTypeFirstInvalid`. -/
def MessageType.IsValid (mt : Nat) : Bool :=
  decide (MsgConnect ≤ mt) && decide (mt < msgTypeFirstInvalid)

/-- Modelled from the spec: ConnAck return codes (Go type `ReturnCode`,
represented here as `Nat`) are valid exactly when in 0-5. -/
def ReturnCode.IsValid (rc : Nat) : Bool :=
  decide (rc ≤ 5)

/-- Modelled from the spec's bit-packing: a boolean flag becomes the bit value
1 or 0.  (`boolToByte` is declared outside `messages.go`.) -/
def boolToByte (b : Bool) : Nat :=
  if b then 1 else 0

/-- Modelled from the spec: an 8-bit unsigned integer is one octet, value
as-is. -/
def setUint8 (v : Nat) : List Nat :=
  [v % 256]

/-- Modelled from the spec: a 16-bit unsigned integer is two octets,
big-endian. -/
def setUint16 (v : Nat) : List Nat :=
  [v % 65536 / 256, v % 256]

/-- Modelled from the spec: a text field is a 16-bit big-endian length
followed by exactly that many octets of content, no terminator. -/
def setString (s : List Nat) : List Nat :=
  setUint16 s.length ++ s

/-- Loop body of `encodeLength`, modelled from the spec: emit the value in
7-bit chunks, least-significant first, setting the top (continuation) bit on
every chunk except the last.  The first argument is fuel that dominates the
number of iterations; the loop itself stops when the value reaches zero. -/
def encLoopAux : Nat → Nat → List Nat
  | _, 0 => []
  | 0, _ + 1 => []
  | fuel + 1, l + 1 =>
    let digit := (l + 1) % 128
    let rest := (l + 1) / 128
    (if rest > 0 then digit + 128 else digit) :: encLoopAux fuel rest

/-- Modelled from the spec: the remaining-length variable-length integer
encoder; 0 encodes as a single zero chunk, otherwise minimal 7-bit chunks
with continuation bits. -/
def encodeLength (length : Nat) : List Nat :=
  if length = 0 then [0] else encLoopAux length length

/-- Modelled from the spec: remaining-length decoding accumulates
`chunk_low7 * 128^i` until a chunk without the continuation bit; at most 4
chunks are read, a 5th continuation is a malformed-length error, and an
exhausted source is a truncated-stream error.  Returns the value and the
unread rest of the source. -/
def decodeLengthAux : Nat → List Nat → Nat → Nat → Except MqttError (Nat × List Nat)
  | 0, _, _, _ => .error .malformedLength
  | _ + 1, [], _, _ => .error .truncatedStream
  | fuel + 1, b :: rest, i, acc =>
    let acc2 := acc + b % 256 % 128 * 128 ^ i
    if b % 256 < 128 then .ok (acc2, rest)
    else decodeLengthAux fuel rest (i + 1) acc2

/-- Modelled from the spec: the remaining-length decoder reads 1 to 4
chunks. -/
def decodeLength (bs : List Nat) : Except MqttError (Nat × List Nat) :=
  decodeLengthAux 4 bs 0 0

/-- Modelled from the spec: read one octet; a budget underflow or an
exhausted source is a truncated-stream fault (converted to an error at the
decode boundary).  Returns the value, the rest of the source and the new
budget. -/
def getUint8 (src : List Nat) (rem : Nat) : Except MqttError (Nat × List Nat × Nat) :=
  match src, rem with
  | b :: rest, r + 1 => .ok (b % 256, rest, r)
  | _, _ => .error .truncatedStream

/-- Modelled from the spec: read a 16-bit big-endian integer under the
remaining-length budget. -/
def getUint16 (src : List Nat) (rem : Nat) : Except MqttError (Nat × List Nat × Nat) :=
  match src, rem with
  | b1 :: b2 :: rest, r + 2 => .ok ((b1 % 256) * 256 + b2 % 256, rest, r)
  | _, _ => .error .truncatedStream

/-- Modelled from the spec: read a length-prefixed text field (16-bit
big-endian length, then that many octets) under the remaining-length
budget; a short source or budget underflow is a truncated-stream fault. -/
def getString (src : List Nat) (rem : Nat) : Except MqttError (List Nat × List Nat × Nat) :=
  match getUint16 src rem with
  | .error e => .error e
  | .ok (len, src2, rem2) =>
    if len ≤ rem2 then
      if len ≤ src2.length then
        .ok ((src2.take len).map (fun b => b % 256), src2.drop len, rem2 - len)
      else .error .truncatedStream
    else .error .truncatedStream

/-- The fixed-header fields `DupFlag`, `Retain`, `QosLevel` from
`messages.go`. -/
structure Header where
  dupFlag : Bool
  retain : Bool
  qosLevel : Nat
  deriving DecidableEq

/-- The zero value of `Header` (what Go's `new` produces). -/
def Header.zero : Header := ⟨false, false, 0⟩

/-- `Header.Encode` from `messages.go`: reject an invalid QoS level, then an
invalid message type, before anything is written; otherwise write one packed
octet (bits 7-4 the type, bit 3 dup, bits 2-1 QoS, bit 0 retain) followed by
the encoded remaining length.  After the two validity checks the packed
value is below 256, so no byte truncation occurs. -/
def Header.Encode (hdr : Header) (sink : List Nat) (msgType : Nat)
    (remainingLength : Nat) : EncResult :=
  if QosLevel.IsValid hdr.qosLevel = false then .err .badQos sink
  else if MessageType.IsValid msgType = false then .err .badMsgType sink
  else
    let val := msgType * 16 + boolToByte hdr.dupFlag * 8 +
      hdr.qosLevel * 2 + boolToByte hdr.retain
    .ok (sink ++ val :: encodeLength remainingLength)

/-- `Header.Decode` from `messages.go`: read one octet, split it into the
type nibble and the dup/QoS/retain bits, then decode the remaining-length
field.  Returns the message type, the remaining length, the header fields
and the unread rest of the source. -/
def Header.Decode (src : List Nat) :
    Except MqttError (Nat × Nat × Header × List Nat) :=
  match src with
  | [] => .error .truncatedStream
  | b :: rest =>
    let byte1 := b % 256
    let msgType : Nat := byte1 / 16
    let hdr : Header := ⟨byte1 / 8 % 2 == 1, byte1 % 2 == 1, byte1 / 2 % 4⟩
    match decodeLength rest with
    | .error e => .error e
    | .ok (remainingLength, rest2) => .ok (msgType, remainingLength, hdr, rest2)

/-- `writeMessage` from `messages.go`: encode the fixed header with the
payload's length as remaining length, then append the buffered payload.
The source passes the constant `MsgConnect` as the message type for every
message kind. -/
def writeMessage (sink : List Nat) (hdr : Header) (payloadBuf : List Nat) : EncResult :=
  match hdr.Encode sink MsgConnect payloadBuf.length with
  | .err e s => .err e s
  | .fault s => .fault s
  | .ok s => .ok (s ++ payloadBuf)

/-- The `Connect` message value from `messages.go`; text fields are octet
lists. -/
structure Connect where
  header : Header
  protocolName : List Nat
  protocolVersion : Nat
  willRetain : Bool
  willFlag : Bool
  cleanSession : Bool
  willQos : Nat
  keepAliveTimer : Nat
  clientId : List Nat
  willTopic : List Nat
  willMessage : List Nat
  usernameFlag : Bool
  passwordFlag : Bool
  username : List Nat
  password : List Nat
  deriving DecidableEq

/-- `Connect.Encode` from `messages.go`: reject an invalid will-QoS first,
then buffer protocol name, version, the connect-flags octet, keep-alive,
client id, the conditional will topic/message, username and password, and
hand the buffer to `writeMessage`.  After the will-QoS check the flags
octet is below 256. -/
def Connect.Encode (msg : Connect) (sink : List Nat) : EncResult :=
  if QosLevel.IsValid msg.willQos = false then .err .badWillQos sink
  else
    let flags := boolToByte msg.usernameFlag * 128 + boolToByte msg.passwordFlag * 64 +
      boolToByte msg.willRetain * 32 + msg.willQos * 8 + boolToByte msg.willFlag * 4 +
      boolToByte msg.cleanSession * 2
    let buf := setString msg.protocolName ++ setUint8 msg.protocolVersion ++ [flags] ++
      setUint16 msg.keepAliveTimer ++ setString msg.clientId ++
      (if msg.willFlag then setString msg.willTopic ++ setString msg.willMessage else []) ++
      (if msg.usernameFlag then setString msg.username else []) ++
      (if msg.passwordFlag then setString msg.password else [])
    writeMessage sink msg.header buf

/-- `Connect.Decode` from `messages.go`: read protocol name, version, the
flags octet, keep-alive and client id, rebuild the value (the source
overwrites the whole record, so the header field is left at its zero
value and the `hdr` argument is unused), then read the conditional
will topic/message, username and password fields. -/
def Connect.Decode (_hdr : Header) (src : List Nat) (rem : Nat) :
    Except MqttError (Connect × List Nat × Nat) := do
  let (protocolName, src1, rem1) ← getString src rem
  let (protocolVersion, src2, rem2) ← getUint8 src1 rem1
  let (flags, src3, rem3) ← getUint8 src2 rem2
  let (keepAliveTimer, src4, rem4) ← getUint16 src3 rem3
  let (clientId, src5, rem5) ← getString src4 rem4
  let msg : Connect :=
    { header := Header.zero
      protocolName := protocolName
      protocolVersion := protocolVersion
      usernameFlag := flags / 128 % 2 == 1
      passwordFlag := flags / 64 % 2 == 1
      willRetain := flags / 32 % 2 == 1
      willQos := flags / 8 % 4
      willFlag := flags / 4 % 2 == 1
      cleanSession := flags / 2 % 2 == 1
      keepAliveTimer := keepAliveTimer
      clientId := clientId
      willTopic := []
      willMessage := []
      username := []
      password := [] }
  let (msg, src6, rem6) ←
    if msg.willFlag then do
      let (wt, sa, ra) ← getString src5 rem5
      let (wm, sb, rb) ← getString sa ra
      pure ({ msg with willTopic := wt, willMessage := wm }, sb, rb)
    else pure (msg, src5, rem5)
  let (msg, src7, rem7) ←
    if msg.usernameFlag then do
      let (un, sa, ra) ← getString src6 rem6
      pure ({ msg with username := un }, sa, ra)
    else pure (msg, src6, rem6)
  let (msg, src8, rem8) ←
    if msg.passwordFlag then do
      let (pw, sa, ra) ← getString src7 rem7
      pure ({ msg with password := pw }, sa, ra)
    else pure (msg, src7, rem7)
  return (msg, src8, rem8)

/-- The `ConnAck` message value from `messages.go`. -/
structure ConnAck where
  header : Header
  returnCode : Nat
  deriving DecidableEq

/-- `ConnAck.Encode` from `messages.go`: one reserved zero octet, then the
return code. -/
def ConnAck.Encode (msg : ConnAck) (sink : List Nat) : EncResult :=
  writeMessage sink msg.header ([0] ++ setUint8 msg.returnCode)

/-- `ConnAck.Decode` from `messages.go`: skip the reserved octet, read the
return code, and reject it when outside 0-5. -/
def ConnAck.Decode (msg : ConnAck) (_hdr : Header) (src : List Nat) (rem : Nat) :
    Except MqttError (ConnAck × List Nat × Nat) := do
  let (_, src1, rem1) ← getUint8 src rem
  let (rc, src2, rem2) ← getUint8 src1 rem1
  if ReturnCode.IsValid rc then
    return ({ msg with returnCode := rc }, src2, rem2)
  else
    throw .badReturnCode

/-- The `Publish` message value from `messages.go`. -/
structure Publish where
  header : Header
  topicName : List Nat
  messageId : Nat
  data : List Nat
  deriving DecidableEq

/-- `Publish.Encode` from `messages.go`: topic name, the message id when the
receiver's QoS level has one, then the raw payload bytes with no length
prefix. -/
def Publish.Encode (msg : Publish) (sink : List Nat) : EncResult :=
  let buf := setString msg.topicName ++
    (if QosLevel.HasId msg.header.qosLevel then setUint16 msg.messageId else []) ++ msg.data
  writeMessage sink msg.header buf

/-- `Publish.Decode` from `messages.go`: read the topic name, then the
message id when the receiver's pre-call QoS level has one, then exactly
`packetRemaining` further octets as the raw payload (`io.ReadFull` into a
buffer of that size; a short source is the truncated-stream fault).  The
budget is not decremented by the payload read, matching the source. -/
def Publish.Decode (msg : Publish) (_hdr : Header) (src : List Nat) (rem : Nat) :
    Except MqttError (Publish × List Nat × Nat) :=
  match getString src rem with
  | .error e => .error e
  | .ok (topicName, src1, rem1) =>
    match (if QosLevel.HasId msg.header.qosLevel then getUint16 src1 rem1
           else .ok (msg.messageId, src1, rem1) : Except MqttError (Nat × List Nat × Nat)) with
    | .error e => .error e
    | .ok (mid, src2, rem2) =>
      if rem2 ≤ src2.length then
        .ok ({ msg with topicName := topicName, messageId := mid,
                        data := (src2.take rem2).map (fun b => b % 256) },
             src2.drop rem2, rem2)
      else .error .truncatedStream

/-- The `Subscribe` message value from `messages.go`. -/
structure Subscribe where
  header : Header
  messageId : Nat
  topics : List (List Nat)
  topicsQos : List Nat
  deriving DecidableEq

/-- The buffer-building loop of `Subscribe.Encode`: for each index of
`topics` it writes the topic and then indexes `topicsQos` at the same
position; `none` models the out-of-range fault raised when `topicsQos`
is shorter than `topics`. -/
def Subscribe.payloadLoop : List (List Nat) → List Nat → Option (List Nat)
  | [], _ => some []
  | t :: ts, q :: qs =>
    match Subscribe.payloadLoop ts qs with
    | some rest => some (setString t ++ setUint8 q ++ rest)
    | none => none
  | _ :: _, [] => none

/-- `Subscribe.Encode` from `messages.go`: the message id when the QoS level
has one, then each topic followed by its requested-QoS octet.  The loop
indexes `topicsQos` at every index of `topics` without a length check, so a
shorter `topicsQos` raises a fault while the sink is still untouched. -/
def Subscribe.Encode (msg : Subscribe) (sink : List Nat) : EncResult :=
  let idPart := if QosLevel.HasId msg.header.qosLevel then setUint16 msg.messageId else []
  match Subscribe.payloadLoop msg.topics msg.topicsQos with
  | none => .fault sink
  | some body => writeMessage sink msg.header (idPart ++ body)

/-- The (topic, requested-QoS) reading loop of `Subscribe.Decode`: while the
budget is positive, read one topic and one QoS octet.  The first argument
is fuel dominating the iteration count (each iteration consumes at least
three budget octets but only one unit of fuel, so starting the fuel at the
budget makes the fuel-exhaustion arm unreachable). -/
def Subscribe.topicLoop : Nat → List Nat → Nat → List (List Nat) → List Nat →
    Except MqttError (List (List Nat) × List Nat × List Nat)
  | _, src, 0, ts, qs => .ok (ts, qs, src)
  | 0, _, _ + 1, _, _ => .error .truncatedStream
  | fuel + 1, src, r + 1, ts, qs =>
    match getString src (r + 1) with
    | .error e => .error e
    | .ok (t, src1, rem1) =>
      match getUint8 src1 rem1 with
      | .error e => .error e
      | .ok (q, src2, rem2) => Subscribe.topicLoop fuel src2 rem2 (ts ++ [t]) (qs ++ [q])

/-- `Subscribe.Decode` from `messages.go`: the message id when the
receiver's pre-call QoS level has one, then (topic, QoS) pairs until the
budget is exhausted. -/
def Subscribe.Decode (msg : Subscribe) (_hdr : Header) (src : List Nat) (rem : Nat) :
    Except MqttError (Subscribe × List Nat × Nat) := do
  let (mid, src1, rem1) ←
    (if QosLevel.HasId msg.header.qosLevel then getUint16 src rem
     else .ok (msg.messageId, src, rem) : Except MqttError (Nat × List Nat × Nat))
  let (ts, qs, src2) ← Subscribe.topicLoop rem1 src1 rem1 [] []
  return ({ msg with messageId := mid, topics := ts, topicsQos := qs }, src2, 0)

/-- The `SubAck` message value from `messages.go`. -/
structure SubAck where
  header : Header
  messageId : Nat
  topicsQos : List Nat
  deriving DecidableEq

/-- `SubAck.Encode` from `messages.go`: the message id, then one granted-QoS
octet per entry. -/
def SubAck.Encode (msg : SubAck) (sink : List Nat) : EncResult :=
  writeMessage sink msg.header (setUint16 msg.messageId ++ (msg.topicsQos.map setUint8).flatten)

/-- The granted-QoS reading loop of `SubAck.Decode`: while the budget is
positive, read one octet with `getUint8` and keep only its low two bits
(the source masks with 0x03).  Each iteration consumes exactly one budget
octet, so the recursion is on the budget itself. -/
def SubAck.qosLoop : List Nat → Nat → List Nat →
    Except MqttError (List Nat × List Nat)
  | src, 0, acc => .ok (acc, src)
  | [], _ + 1, _ => .error .truncatedStream
  | b :: rest, r + 1, acc => SubAck.qosLoop rest r (acc ++ [b % 256 % 4])

/-- `SubAck.Decode` from `messages.go`: the message id, then the granted-QoS
loop until the budget is exhausted. -/
def SubAck.Decode (msg : SubAck) (_hdr : Header) (src : List Nat) (rem : Nat) :
    Except MqttError (SubAck × List Nat × Nat) :=
  match getUint16 src rem with
  | .error e => .error e
  | .ok (mid, src1, rem1) =>
    match SubAck.qosLoop src1 rem1 [] with
    | .error e => .error e
    | .ok (qos, src2) => .ok ({ msg with messageId := mid, topicsQos := qos }, src2, 0)

/-- The `Unsubscribe` message value from `messages.go`. -/
structure Unsubscribe where
  header : Header
  messageId : Nat
  topics : List (List Nat)
  deriving DecidableEq

/-- `Unsubscribe.Encode` from `messages.go`: the message id when the QoS
level has one, then each topic name in sequence. -/
def Unsubscribe.Encode (msg : Unsubscribe) (sink : List Nat) : EncResult :=
  let idPart := if QosLevel.HasId msg.header.qosLevel then setUint16 msg.messageId else []
  writeMessage sink msg.header (idPart ++ (msg.topics.map setString).flatten)

/-- The topic reading loop of `Unsubscribe.Decode`: while the budget is
positive, read one topic name.  Fuel dominates the iteration count as in
`Subscribe.topicLoop`. -/
def Unsubscribe.topicLoop : Nat → List Nat → Nat → List (List Nat) →
    Except MqttError (List (List Nat) × List Nat)
  | _, src, 0, ts => .ok (ts, src)
  | 0, _, _ + 1, _ => .error .truncatedStream
  | fuel + 1, src, r + 1, ts =>
    match getString src (r + 1) with
    | .error e => .error e
    | .ok (t, src1, rem1) => Unsubscribe.topicLoop fuel src1 rem1 (ts ++ [t])

/-- `Unsubscribe.Decode` from `messages.go`: the message id when the
receiver's pre-call QoS level is 1 or 2, then topic names until the budget
is exhausted. -/
def Unsubscribe.Decode (msg : Unsubscribe) (_hdr : Header) (src : List Nat) (rem : Nat) :
    Except MqttError (Unsubscribe × List Nat × Nat) := do
  let (mid, src1, rem1) ←
    (if msg.header.qosLevel = 1 ∨ msg.header.qosLevel = 2 then getUint16 src rem
     else .ok (msg.messageId, src, rem) : Except MqttError (Nat × List Nat × Nat))
  let (ts, src2) ← Unsubscribe.topicLoop rem1 src1 rem1 []
  return ({ msg with messageId := mid, topics := ts }, src2, 0)

/-- The shared ack shape (`AckCommon` in `messages.go`), used by PubAck,
PubRec, PubRel, PubComp and UnsubAck. -/
structure AckCommon where
  header : Header
  messageId : Nat
  deriving DecidableEq

/-- `AckCommon.Encode` from `messages.go`: the message id only. -/
def AckCommon.Encode (msg : AckCommon) (sink : List Nat) : EncResult :=
  writeMessage sink msg.header (setUint16 msg.messageId)

/-- `AckCommon.Decode` from `messages.go`: the message id only. -/
def AckCommon.Decode (msg : AckCommon) (_hdr : Header) (src : List Nat) (rem : Nat) :
    Except MqttError (AckCommon × List Nat × Nat) :=
  match getUint16 src rem with
  | .error e => .error e
  | .ok (mid, src1, rem1) => .ok ({ msg with messageId := mid }, src1, rem1)

/-- Modelled from the spec: PingReq, PingResp and Disconnect are header-only
messages with a zero-length payload (their codecs are outside
`messages.go`). -/
def pingEncode (h : Header) (sink : List Nat) : EncResult :=
  writeMessage sink h []

/-- The closed set of fourteen message kinds; the five ack-shaped kinds
share `AckCommon` under distinct tags. -/
inductive Message where
  | connect (m : Connect)
  | connAck (m : ConnAck)
  | publish (m : Publish)
  | pubAck (m : AckCommon)
  | pubRec (m : AckCommon)
  | pubRel (m : AckCommon)
  | pubComp (m : AckCommon)
  | subscribe (m : Subscribe)
  | subAck (m : SubAck)
  | unsubscribe (m : Unsubscribe)
  | unsubAck (m : AckCommon)
  | pingReq (header : Header)
  | pingResp (header : Header)
  | disconnect (header : Header)
  deriving DecidableEq

/-- The embedded fixed header of a message value. -/
def Message.headerOf : Message → Header
  | .connect m => m.header
  | .connAck m => m.header
  | .publish m => m.header
  | .pubAck m => m.header
  | .pubRec m => m.header
  | .pubRel m => m.header
  | .pubComp m => m.header
  | .subscribe m => m.header
  | .subAck m => m.header
  | .unsubscribe m => m.header
  | .unsubAck m => m.header
  | .pingReq h => h
  | .pingResp h => h
  | .disconnect h => h

/-- Dispatch of `Encode` over the closed message set. -/
def Message.Encode : Message → List Nat → EncResult
  | .connect m, sink => m.Encode sink
  | .connAck m, sink => m.Encode sink
  | .publish m, sink => m.Encode sink
  | .pubAck m, sink => m.Encode sink
  | .pubRec m, sink => m.Encode sink
  | .pubRel m, sink => m.Encode sink
  | .pubComp m, sink => m.Encode sink
  | .subscribe m, sink => m.Encode sink
  | .subAck m, sink => m.Encode sink
  | .unsubscribe m, sink => m.Encode sink
  | .unsubAck m, sink => m.Encode sink
  | .pingReq h, sink => pingEncode h sink
  | .pingResp h, sink => pingEncode h sink
  | .disconnect h, sink => pingEncode h sink

/-- Modelled from the spec: `DecodeRead` decodes the fixed header, validates
the extracted message type, constructs the empty message value matching
that type, and runs its payload decoder with the header and the
remaining-length budget.  (`DecodeRead` itself is declared outside
`messages.go`.) -/
def DecodeRead (src : List Nat) : Except MqttError Message :=
  match Header.Decode src with
  | .error e => .error e
  | .ok (msgType, remainingLength, hdr, src1) =>
    if MessageType.IsValid msgType = false then .error .badMsgType
    else if msgType = MsgConnect then
      (Connect.Decode hdr src1 remainingLength).map (fun r => .connect r.1)
    else if msgType = MsgConnAck then
      (ConnAck.Decode ⟨Header.zero, 0⟩ hdr src1 remainingLength).map (fun r => .connAck r.1)
    else if msgType = MsgPublish then
      (Publish.Decode ⟨Header.zero, [], 0, []⟩ hdr src1 remainingLength).map (fun r => .publish r.1)
    else if msgType = MsgPubAck then
      (AckCommon.Decode ⟨Header.zero, 0⟩ hdr src1 remainingLength).map (fun r => .pubAck r.1)
    else if msgType = MsgPubRec then
      (AckCommon.Decode ⟨Header.zero, 0⟩ hdr src1 remainingLength).map (fun r => .pubRec r.1)
    else if msgType = MsgPubRel then
      (AckCommon.Decode ⟨Header.zero, 0⟩ hdr src1 remainingLength).map (fun r => .pubRel r.1)
    else if msgType = MsgPubComp then
      (AckCommon.Decode ⟨Header.zero, 0⟩ hdr src1 remainingLength).map (fun r => .pubComp r.1)
    else if msgType = MsgSubscribe then
      (Subscribe.Decode ⟨Header.zero, 0, [], []⟩ hdr src1 remainingLength).map (fun r => .subscribe r.1)
    else if msgType = MsgSubAck then
      (SubAck.Decode ⟨Header.zero, 0, []⟩ hdr src1 remainingLength).map (fun r => .subAck r.1)
    else if msgType = MsgUnsubscribe then
      (Unsubscribe.Decode ⟨Header.zero, 0, []⟩ hdr src1 remainingLength).map (fun r => .unsubscribe r.1)
    else if msgType = MsgUnsubAck then
      (AckCommon.Decode ⟨Header.zero, 0⟩ hdr src1 remainingLength).map (fun r => .unsubAck r.1)
    else if msgType = MsgPingReq then .ok (.pingReq Header.zero)
    else if msgType = MsgPingResp then .ok (.pingResp Header.zero)
    else .ok (.disconnect Header.zero)

/-- The Connect value of the repository's encoding test: protocol name
"MQIsdp", version 3, username/password/will/clean-session flags set,
will-QoS 1, keep-alive 10, client id "xixihaha", will topic "topic",
will message "message", username "name", password "pwd" (strings as
ASCII octet lists). -/
def testConnect : Connect :=
  { header := Header.zero
    protocolName := [77, 81, 73, 115, 100, 112]
    protocolVersion := 3
    willRetain := false
    willFlag := true
    cleanSession := true
    willQos := 1
    keepAliveTimer := 10
    clientId := [120, 105, 120, 105, 104, 97, 104, 97]
    willTopic := [116, 111, 112, 105, 99]
    willMessage := [109, 101, 115, 115, 97, 103, 101]
    usernameFlag := true
    passwordFlag := true
    username := [110, 97, 109, 101]
    password := [112, 119, 100] }

/-- The octet stream `Connect.Encode` produces for `testConnect`: header
octet 0x10, remaining length 49, protocol-name field, version 3, flags
0xCE, keep-alive 10, then the length-prefixed client id, will topic,
will message, username and password. -/
def connectTestBytes : List Nat :=
  [16, 49, 0, 6, 77, 81, 73, 115, 100, 112, 3, 206, 0, 10,
   0, 8, 120, 105, 120, 105, 104, 97, 104, 97,
   0, 5, 116, 111, 112, 105, 99,
   0, 7, 109, 101, 115, 115, 97, 103, 101,
   0, 4, 110, 97, 109, 101,
   0, 3, 112, 119, 100]

/-! ## Helper lemmas -/

/-- `getUint16` can only fail with a truncated stream. -/
theorem getUint16_error_eq {src : List Nat} {rem : Nat} {e : MqttError}
    (h : getUint16 src rem = .error e) : e = .truncatedStream := by
  unfold getUint16 at h
  split at h
  · simp at h
  · injection h with h
    exact h.symm

/-- On success `getUint16` consumes exactly two octets of budget and two
octets of source. -/
theorem getUint16_ok_sizes {src : List Nat} {rem v : Nat} {s2 : List Nat} {r2 : Nat}
    (h : getUint16 src rem = .ok (v, s2, r2)) :
    rem = r2 + 2 ∧ src.length = s2.length + 2 := by
  unfold getUint16 at h
  split at h
  next b1 b2 rest r =>
    simp only [Except.ok.injEq, Prod.mk.injEq] at h
    obtain ⟨-, h2, h3⟩ := h
    subst h2 h3
    simp
  next => simp at h

/-- `getString` can only fail with a truncated stream. -/
theorem getString_error_eq {src : List Nat} {rem : Nat} {e : MqttError}
    (h : getString src rem = .error e) : e = .truncatedStream := by
  unfold getString at h
  split at h
  next e2 he => injection h with h; exact h ▸ getUint16_error_eq he
  next len src1 rem1 he =>
    split at h
    · split at h
      · simp at h
      · injection h with h; exact h.symm
    · injection h with h; exact h.symm

/-- On success `getString` consumes exactly `2 + length` octets of budget
and of source, where `length` is the length of the returned text. -/
theorem getString_ok_sizes {src : List Nat} {rem : Nat} {t s2 : List Nat} {r2 : Nat}
    (h : getString src rem = .ok (t, s2, r2)) :
    rem = r2 + (2 + t.length) ∧ src.length = s2.length + (2 + t.length) := by
  unfold getString at h
  split at h
  next e2 he => simp at h
  next len src1 rem1 he =>
    obtain ⟨h1, h2⟩ := getUint16_ok_sizes he
    split at h
    next hlen =>
      split at h
      next hsrc =>
        simp only [Except.ok.injEq, Prod.mk.injEq] at h
        obtain ⟨ht, hs, hr⟩ := h
        subst ht hs hr
        simp only [List.length_map, List.length_take, List.length_drop]
        omega
      next => simp at h
    next => simp at h

/-- A source shorter than the budget stays shorter than the budget across a
successful `getString`. -/
theorem getString_deficit {src : List Nat} {rem : Nat} {t s2 : List Nat} {r2 : Nat}
    (h : getString src rem = .ok (t, s2, r2)) (hlt : src.length < rem) :
    s2.length < r2 := by
  obtain ⟨h1, h2⟩ := getString_ok_sizes h
  omega

/-- `Header.Encode` leaves the sink unchanged when it returns an error. -/
theorem header_encode_err_sink {hdr : Header} {sink : List Nat} {mt remLen : Nat}
    {e : MqttError} {s : List Nat} (h : Header.Encode hdr sink mt remLen = .err e s) :
    s = sink := by
  unfold Header.Encode at h
  split at h
  · simp only [EncResult.err.injEq] at h
    exact h.2.symm
  · split at h
    · simp only [EncResult.err.injEq] at h
      exact h.2.symm
    · simp at h

/-- `writeMessage` leaves the sink unchanged when it returns an error. -/
theorem writeMessage_err_sink {sink : List Nat} {hdr : Header} {p : List Nat}
    {e : MqttError} {s : List Nat} (h : writeMessage sink hdr p = .err e s) :
    s = sink := by
  unfold writeMessage at h
  split at h
  next e2 s2 hE =>
    simp only [EncResult.err.injEq] at h
    exact h.2.symm ▸ header_encode_err_sink hE
  next => simp at h
  next => simp at h

/-- `writeMessage` never raises a fault. -/
theorem writeMessage_ne_fault (sink : List Nat) (hdr : Header) (p : List Nat)
    (s : List Nat) : writeMessage sink hdr p ≠ .fault s := by
  unfold writeMessage
  split
  · simp
  next s2 hE =>
    exfalso
    unfold Header.Encode at hE
    split at hE
    · simp at hE
    · split at hE <;> simp at hE
  · simp

/-- With a granted-QoS list at least as long as the topic list, the
`Subscribe.Encode` buffer loop completes without a fault. -/
theorem payloadLoop_isSome (ts : List (List Nat)) (qs : List Nat)
    (h : ts.length ≤ qs.length) : ∃ body, Subscribe.payloadLoop ts qs = some body := by
  induction ts generalizing qs with
  | nil => exact ⟨[], rfl⟩
  | cons t ts ih =>
    cases qs with
    | nil => simp at h
    | cons q qs =>
      obtain ⟨body, hb⟩ := ih qs (by simpa using h)
      refine ⟨setString t ++ setUint8 q ++ body, ?_⟩
      simp only [Subscribe.payloadLoop]
      rw [hb]

/-- Unfolding equation for `encLoopAux` at zero. -/
theorem encLoopAux_zero (ef : Nat) : encLoopAux ef 0 = [] := by
  cases ef <;> rfl

/-- Unfolding equation for `encLoopAux` on positive fuel and value. -/
theorem encLoopAux_succ (ef l : Nat) :
    encLoopAux (ef + 1) (l + 1) =
      (if (l + 1) / 128 > 0 then (l + 1) % 128 + 128 else (l + 1) % 128) ::
        encLoopAux ef ((l + 1) / 128) := rfl

/-- Unfolding equation for `decodeLengthAux` on a chunk. -/
theorem decodeLengthAux_cons (df b : Nat) (rest : List Nat) (i acc : Nat) :
    decodeLengthAux (df + 1) (b :: rest) i acc =
      (if b % 256 < 128 then .ok (acc + b % 256 % 128 * 128 ^ i, rest)
       else decodeLengthAux df rest (i + 1) (acc + b % 256 % 128 * 128 ^ i)) := rfl

/-- Decoding the chunks the encoder loop emits recovers the value, scaled by
the chunk position, provided the encoder fuel covers the value and the
decoder fuel covers its chunk count. -/
theorem decodeLengthAux_encLoopAux (n : Nat) :
    ∀ efuel dfuel i acc, 0 < n → n ≤ efuel → n < 128 ^ dfuel →
      decodeLengthAux dfuel (encLoopAux efuel n) i acc = .ok (acc + n * 128 ^ i, []) := by
  induction n using Nat.strong_induction_on with
  | _ n ih =>
    intro efuel dfuel i acc hpos hef hdf
    obtain ⟨l, rfl⟩ : ∃ l, n = l + 1 := ⟨n - 1, by omega⟩
    obtain ⟨ef, rfl⟩ : ∃ ef, efuel = ef + 1 := ⟨efuel - 1, by omega⟩
    have hdp : dfuel ≠ 0 := by
      intro h0
      rw [h0, pow_zero] at hdf
      omega
    obtain ⟨df, rfl⟩ : ∃ df, dfuel = df + 1 := ⟨dfuel - 1, by omega⟩
    rw [encLoopAux_succ]
    by_cases hrest : (l + 1) / 128 > 0
    · rw [if_pos hrest, decodeLengthAux_cons]
      have hmod : ((l + 1) % 128 + 128) % 256 = (l + 1) % 128 + 128 := by omega
      rw [hmod, if_neg (by omega)]
      have hm128 : ((l + 1) % 128 + 128) % 128 = (l + 1) % 128 := by omega
      rw [hm128]
      have hlt : (l + 1) / 128 < l + 1 := Nat.div_lt_self (by omega) (by norm_num)
      have hdf2 : (l + 1) / 128 < 128 ^ df := by
        rw [Nat.div_lt_iff_lt_mul (show 0 < 128 by norm_num)]
        calc l + 1 < 128 ^ (df + 1) := hdf
          _ = 128 ^ df * 128 := by rw [pow_succ]
      rw [ih ((l + 1) / 128) hlt ef df (i + 1)
            (acc + (l + 1) % 128 * 128 ^ i) hrest (by omega) hdf2]
      have key : (l + 1) % 128 * 128 ^ i + (l + 1) / 128 * 128 ^ (i + 1) =
          (l + 1) * 128 ^ i := by
        have hmd : (l + 1) / 128 * 128 + (l + 1) % 128 = l + 1 := by omega
        calc (l + 1) % 128 * 128 ^ i + (l + 1) / 128 * 128 ^ (i + 1)
            = ((l + 1) / 128 * 128 + (l + 1) % 128) * 128 ^ i := by
              rw [pow_succ]; ring
          _ = (l + 1) * 128 ^ i := by rw [hmd]
      have heq2 : acc + (l + 1) % 128 * 128 ^ i + (l + 1) / 128 * 128 ^ (i + 1) =
          acc + (l + 1) * 128 ^ i := by rw [Nat.add_assoc, key]
      rw [heq2]
    · rw [if_neg hrest, decodeLengthAux_cons]
      have hz : (l + 1) / 128 = 0 := by omega
      rw [hz, encLoopAux_zero]
      have hsmall : l + 1 < 128 := by omega
      have hb : (l + 1) % 128 % 256 = l + 1 := by omega
      rw [hb, if_pos (by omega)]
      have hv : (l + 1) % 128 = l + 1 := by omega
      rw [hv]

/-- Elements accumulated by the `SubAck` granted-QoS loop stay at most 3. -/
theorem subAck_qosLoop_mask (rem : Nat) :
    ∀ (src : List Nat) (acc qos : List Nat) (src2 : List Nat),
      SubAck.qosLoop src rem acc = .ok (qos, src2) →
      (∀ q ∈ acc, q ≤ 3) → ∀ q ∈ qos, q ≤ 3 := by
  induction rem with
  | zero =>
    intro src acc qos src2 h hacc
    have h0 : SubAck.qosLoop src 0 acc = .ok (acc, src) := by cases src <;> rfl
    rw [h0] at h
    simp only [Except.ok.injEq, Prod.mk.injEq] at h
    exact h.1 ▸ hacc
  | succ r ih =>
    intro src acc qos src2 h hacc
    cases src with
    | nil => simp [SubAck.qosLoop] at h
    | cons b rest =>
      refine ih rest (acc ++ [b % 256 % 4]) qos src2 h ?_
      intro q hq
      rcases List.mem_append.mp hq with hq | hq
      · exact hacc q hq
      · rw [List.mem_singleton] at hq
        subst hq
        exact Nat.lt_succ_iff.mp (Nat.mod_lt _ (by norm_num))

/-! ## Claim theorems -/

/-- Claim C1: the first octet of a successful encode should carry the
message's own type in its high nibble.  It does not: `writeMessage` passes
`MsgConnect` for every kind, so encoding a Publish (type 3) yields first
octet 16, whose high nibble is `MsgConnect` (1), not `MsgPublish` (3). -/
theorem publish_encode_first_octet_connect_nibble :
    Publish.Encode ⟨Header.zero, [97], 0, []⟩ [] = .ok [16, 3, 0, 1, 97] ∧
    16 / 16 = MsgConnect ∧ MsgConnect ≠ MsgPublish :=
  ⟨rfl, rfl, by decide⟩

/-- Claim C2: the encode/decode round trip fails for non-Connect kinds.
Encoding the PubAck with message id 5 yields `[16, 2, 0, 5]` (stamped with
the Connect type nibble), and `DecodeRead` of those octets dispatches to
the Connect decoder and fails with a truncated stream instead of returning
an equal PubAck. -/
theorem pubAck_encode_decodeRead_mismatch :
    AckCommon.Encode ⟨Header.zero, 5⟩ [] = .ok [16, 2, 0, 5] ∧
    DecodeRead [16, 2, 0, 5] = .error .truncatedStream :=
  ⟨rfl, rfl⟩

/-- Claim C3 (counterexample): encoding the repository's test Connect value
produces remaining-length octet 49, not 39 as the claim states. -/
theorem connect_encode_remaining_length_not_39 :
    Connect.Encode testConnect [] = .ok connectTestBytes ∧
    connectTestBytes[1]? ≠ some 39 :=
  ⟨rfl, by decide⟩

/-- Claim C3 (amended): encoding the test Connect value produces exactly the
fixed header octet 0x10, remaining length 49, the protocol-name field
`00 06 "MQIsdp"`, the octets `03 CE 00 0A`, then the length-prefixed client
id, will topic, will message, username and password in that order. -/
theorem connect_encode_test_vector :
    Connect.Encode testConnect [] =
      .ok [16, 49, 0, 6, 77, 81, 73, 115, 100, 112, 3, 206, 0, 10,
           0, 8, 120, 105, 120, 105, 104, 97, 104, 97,
           0, 5, 116, 111, 112, 105, 99,
           0, 7, 109, 101, 115, 115, 97, 103, 101,
           0, 4, 110, 97, 109, 101,
           0, 3, 112, 119, 100] :=
  rfl

/-- Claim C8: for every n in [0, 268435455], decoding the octets produced by
encoding n with the remaining-length codec yields n again (and consumes the
whole encoding). -/
theorem decodeLength_encodeLength (n : Nat) (h : n ≤ 268435455) :
    decodeLength (encodeLength n) = .ok (n, []) := by
  by_cases h0 : n = 0
  · subst h0
    rfl
  · unfold encodeLength decodeLength
    rw [if_neg h0]
    have hp : (128 : Nat) ^ 4 = 268435456 := by norm_num
    have := decodeLengthAux_encLoopAux n n 4 0 0 (by omega) le_rfl (by omega)
    simpa using this

theorem decodeLength_encodeLength_witness :
    2097152 ≤ 268435455 ∧ decodeLength (encodeLength 2097152) = .ok (2097152, []) :=
  ⟨by norm_num, decodeLength_encodeLength 2097152 (by norm_num)⟩

/-- Claim C9: every element of the granted-QoS list of a successful SubAck
decode is at most 3, because the decoder keeps only the low 2 bits of each
octet. -/
theorem subAck_decode_qos_le_three (pre : SubAck) (hdr : Header) (src : List Nat)
    (rem : Nat) (m2 : SubAck) (s2 : List Nat) (r2 : Nat)
    (h : SubAck.Decode pre hdr src rem = .ok (m2, s2, r2)) :
    ∀ q ∈ m2.topicsQos, q ≤ 3 := by
  unfold SubAck.Decode at h
  split at h
  · simp at h
  next mid src1 rem1 heq =>
    split at h
    · simp at h
    next qos src2 heq2 =>
      simp only [Except.ok.injEq, Prod.mk.injEq] at h
      obtain ⟨hm, -, -⟩ := h
      subst hm
      simpa using subAck_qosLoop_mask rem1 src1 [] qos src2 heq2 (by simp)

theorem subAck_decode_qos_le_three_witness :
    SubAck.Decode ⟨Header.zero, 0, []⟩ Header.zero [0, 5, 7] 3 =
      .ok (⟨Header.zero, 5, [3]⟩, [], 0) ∧ (3 : Nat) ≤ 3 :=
  ⟨rfl, subAck_decode_qos_le_three ⟨Header.zero, 0, []⟩ Header.zero [0, 5, 7] 3
      ⟨Header.zero, 5, [3]⟩ [] 0 rfl 3 (by simp)⟩

/-- Claim C6: decoding a ConnAck whose return-code octet is outside 0-5
fails with BadReturnCodeError; with an octet inside 0-5 the decode succeeds,
so it does not fail for that reason. -/
theorem connAck_decode_return_code (pre : ConnAck) (hdr : Header) (b0 b1 : Nat)
    (rest : List Nat) (rem : Nat) :
    (5 < b1 % 256 →
      ConnAck.Decode pre hdr (b0 :: b1 :: rest) (rem + 2) = .error .badReturnCode) ∧
    (b1 % 256 ≤ 5 →
      ConnAck.Decode pre hdr (b0 :: b1 :: rest) (rem + 2) =
        .ok ({ pre with returnCode := b1 % 256 }, rest, rem)) := by
  constructor
  · intro h
    have hv : ReturnCode.IsValid (b1 % 256) = false := by
      simp only [ReturnCode.IsValid, decide_eq_false_iff_not]
      omega
    show (if ReturnCode.IsValid (b1 % 256) = true then
            (.ok ({ pre with returnCode := b1 % 256 }, rest, rem) :
              Except MqttError (ConnAck × List Nat × Nat))
          else .error .badReturnCode) = .error .badReturnCode
    rw [hv]
    simp
  · intro h
    have hv : ReturnCode.IsValid (b1 % 256) = true := by
      simp only [ReturnCode.IsValid, decide_eq_true_eq]
      omega
    show (if ReturnCode.IsValid (b1 % 256) = true then
            (.ok ({ pre with returnCode := b1 % 256 }, rest, rem) :
              Except MqttError (ConnAck × List Nat × Nat))
          else .error .badReturnCode) =
        .ok ({ pre with returnCode := b1 % 256 }, rest, rem)
    rw [hv]
    simp

theorem connAck_decode_return_code_witness :
    ConnAck.Decode ⟨Header.zero, 0⟩ Header.zero [0, 6] 2 = .error .badReturnCode ∧
    ConnAck.Decode ⟨Header.zero, 0⟩ Header.zero [0, 3] 2 =
      .ok (⟨Header.zero, 3⟩, [], 0) :=
  ⟨(connAck_decode_return_code ⟨Header.zero, 0⟩ Header.zero 0 6 [] 0).1 (by norm_num),
   (connAck_decode_return_code ⟨Header.zero, 0⟩ Header.zero 0 3 [] 0).2 (by norm_num)⟩

/-- Claim C7: on a successful Publish decode with budget `rem`, the payload
holds exactly `rem` minus the octets of the topic-name field (2 plus the
topic length) and, when the receiver's QoS level has a message id, the two
id octets; the payload itself carries no length prefix. -/
theorem publish_decode_data_length (pre : Publish) (hdr : Header) (src : List Nat)
    (rem : Nat) (m2 : Publish) (s2 : List Nat) (r2 : Nat)
    (h : Publish.Decode pre hdr src rem = .ok (m2, s2, r2)) :
    m2.data.length =
      rem - (2 + m2.topicName.length) -
        (if QosLevel.HasId pre.header.qosLevel then 2 else 0) := by
  unfold Publish.Decode at h
  split at h
  · simp at h
  next topic src1 rem1 heq =>
    obtain ⟨hb1, hb2⟩ := getString_ok_sizes heq
    split at h
    · simp at h
    next mid src2 rem2 heq2 =>
      split at h
      next hle =>
        simp only [Except.ok.injEq, Prod.mk.injEq] at h
        obtain ⟨hm, -, -⟩ := h
        subst hm
        simp only [List.length_map, List.length_take]
        by_cases hid : QosLevel.HasId pre.header.qosLevel = true
        · rw [if_pos hid]
          rw [if_pos hid] at heq2
          obtain ⟨hc1, hc2⟩ := getUint16_ok_sizes heq2
          omega
        · rw [if_neg hid]
          rw [if_neg hid] at heq2
          simp only [Except.ok.injEq, Prod.mk.injEq] at heq2
          obtain ⟨-, hs, hr⟩ := heq2
          subst hs hr
          omega
      next => simp at h

theorem publish_decode_data_length_witness :
    Publish.Decode ⟨⟨false, false, 1⟩, [], 0, []⟩ Header.zero [0, 1, 97, 0, 7, 5, 6] 7 =
      .ok (⟨⟨false, false, 1⟩, [97], 7, [5, 6]⟩, [], 2) ∧
    (Publish.mk ⟨false, false, 1⟩ [97] 7 [5, 6]).data.length =
      7 - (2 + (Publish.mk ⟨false, false, 1⟩ [97] 7 [5, 6]).topicName.length) -
        (if QosLevel.HasId (Publish.mk ⟨false, false, 1⟩ [] 0 []).header.qosLevel
         then 2 else 0) :=
  ⟨rfl, publish_decode_data_length ⟨⟨false, false, 1⟩, [], 0, []⟩ Header.zero
      [0, 1, 97, 0, 7, 5, 6] 7 ⟨⟨false, false, 1⟩, [97], 7, [5, 6]⟩ [] 2 rfl⟩

/-- Claim C5: a Publish decode whose declared remaining-length budget
exceeds the octets actually available in the source always returns
TruncatedStreamError (the fault raised by the failing primitive read or by
the short payload read, converted at the decode boundary), never an
uncontrolled fault or a success. -/
theorem publish_decode_truncated (pre : Publish) (hdr : Header) (src : List Nat)
    (rem : Nat) (hlt : src.length < rem) :
    Publish.Decode pre hdr src rem = .error .truncatedStream := by
  unfold Publish.Decode
  split
  next e hgs =>
    rw [getString_error_eq hgs]
  next topic src1 rem1 hgs =>
    have hd1 : src1.length < rem1 := getString_deficit hgs hlt
    by_cases hid : QosLevel.HasId pre.header.qosLevel = true
    · rw [if_pos hid]
      split
      next e hg2 =>
        rw [getUint16_error_eq hg2]
      next mid src2 rem2 hg2 =>
        obtain ⟨hc1, hc2⟩ := getUint16_ok_sizes hg2
        rw [if_neg (by omega)]
    · rw [if_neg hid]
      split
      next e hg2 => simp at hg2
      next mid src2 rem2 hg2 =>
        simp only [Except.ok.injEq, Prod.mk.injEq] at hg2
        obtain ⟨-, hs, hr⟩ := hg2
        subst hs hr
        rw [if_neg (by omega)]

theorem publish_decode_truncated_witness :
    ([0, 1, 97] : List Nat).length < 5 ∧
    Publish.Decode ⟨Header.zero, [], 0, []⟩ Header.zero [0, 1, 97] 5 =
      .error .truncatedStream :=
  ⟨by norm_num,
   publish_decode_truncated ⟨Header.zero, [], 0, []⟩ Header.zero [0, 1, 97] 5 (by norm_num)⟩

/-- With a header QoS level of 3, `writeMessage` stops at the header
validation and returns BadQosError with the sink untouched. -/
theorem writeMessage_qos3 (sink : List Nat) (hdr : Header) (p : List Nat)
    (h : hdr.qosLevel = 3) : writeMessage sink hdr p = .err .badQos sink := by
  unfold writeMessage Header.Encode
  rw [h]
  rfl

/-- Claim C4 (counterexample): a Subscribe with header QoS level 3 whose
granted-QoS list is shorter than its topic list raises the out-of-range
fault while building the payload, before the QoS validation runs, so its
Encode does not return BadQosError. -/
theorem subscribe_qos3_short_qos_faults :
    Message.Encode (.subscribe ⟨⟨false, false, 3⟩, 0, [[97]], []⟩) [] = .fault [] ∧
    EncResult.fault ([] : List Nat) ≠ .err .badQos [] :=
  ⟨rfl, by decide⟩

/-- Claim C4 (amended): for every message whose header QoS level is 3 —
with a valid will-QoS for Connect, and for Subscribe a granted-QoS list at
least as long as the topic list — Encode returns BadQosError with the sink
untouched; and in general every returned encode error leaves the sink
unchanged. -/
theorem encode_qos3_badQos (msg : Message) (sink : List Nat)
    (hq : msg.headerOf.qosLevel = 3)
    (hc : ∀ c, msg = .connect c → QosLevel.IsValid c.willQos = true)
    (hs : ∀ s, msg = .subscribe s → s.topics.length ≤ s.topicsQos.length) :
    Message.Encode msg sink = .err .badQos sink ∧
    ∀ (m2 : Message) (sink2 : List Nat) (e : MqttError) (s : List Nat),
      Message.Encode m2 sink2 = .err e s → s = sink2 := by
  constructor
  · cases msg with
    | connect c =>
      have hv := hc c rfl
      have hq3 : c.header.qosLevel = 3 := hq
      show Connect.Encode c sink = .err .badQos sink
      unfold Connect.Encode
      rw [hv, if_neg (by simp)]
      exact writeMessage_qos3 sink c.header _ hq3
    | connAck c => exact writeMessage_qos3 sink c.header _ hq
    | publish m => exact writeMessage_qos3 sink m.header _ hq
    | pubAck m => exact writeMessage_qos3 sink m.header _ hq
    | pubRec m => exact writeMessage_qos3 sink m.header _ hq
    | pubRel m => exact writeMessage_qos3 sink m.header _ hq
    | pubComp m => exact writeMessage_qos3 sink m.header _ hq
    | subscribe m =>
      obtain ⟨body, hb⟩ := payloadLoop_isSome m.topics m.topicsQos (hs m rfl)
      have hq3 : m.header.qosLevel = 3 := hq
      show Subscribe.Encode m sink = .err .badQos sink
      simp only [Subscribe.Encode]
      rw [hb]
      exact writeMessage_qos3 sink m.header _ hq3
    | subAck m => exact writeMessage_qos3 sink m.header _ hq
    | unsubscribe m => exact writeMessage_qos3 sink m.header _ hq
    | unsubAck m => exact writeMessage_qos3 sink m.header _ hq
    | pingReq h => exact writeMessage_qos3 sink h _ hq
    | pingResp h => exact writeMessage_qos3 sink h _ hq
    | disconnect h => exact writeMessage_qos3 sink h _ hq
  · intro m2 sink2 e s h
    cases m2 with
    | connect c =>
      simp only [Message.Encode, Connect.Encode] at h
      split at h
      · simp only [EncResult.err.injEq] at h
        exact h.2.symm
      · exact writeMessage_err_sink h
    | connAck c => exact writeMessage_err_sink h
    | publish m => exact writeMessage_err_sink h
    | pubAck m => exact writeMessage_err_sink h
    | pubRec m => exact writeMessage_err_sink h
    | pubRel m => exact writeMessage_err_sink h
    | pubComp m => exact writeMessage_err_sink h
    | subscribe m =>
      simp only [Message.Encode, Subscribe.Encode] at h
      split at h
      · simp at h
      · exact writeMessage_err_sink h
    | subAck m => exact writeMessage_err_sink h
    | unsubscribe m => exact writeMessage_err_sink h
    | unsubAck m => exact writeMessage_err_sink h
    | pingReq h2 => exact writeMessage_err_sink h
    | pingResp h2 => exact writeMessage_err_sink h
    | disconnect h2 => exact writeMessage_err_sink h

theorem encode_qos3_badQos_witness :
    Message.Encode (.connAck ⟨⟨false, false, 3⟩, 0⟩) [9] = .err .badQos [9] :=
  (encode_qos3_badQos (.connAck ⟨⟨false, false, 3⟩, 0⟩) [9] rfl
      (fun _ hc => Message.noConfusion hc) (fun _ hx => Message.noConfusion hx)).1

/-- Claim C10: with `topicsQos` at least as long as `topics`,
`Subscribe.Encode` performs no out-of-range access (it never faults); and
on a concrete value whose `topics` is longer than its `topicsQos` it raises
the out-of-range fault instead of returning an error. -/
theorem subscribe_encode_index_bounds :
    (∀ (m : Subscribe) (sink : List Nat), m.topics.length ≤ m.topicsQos.length →
      ∀ s, Subscribe.Encode m sink ≠ .fault s) ∧
    ((⟨⟨false, false, 0⟩, 0, [[97]], []⟩ : Subscribe).topicsQos.length <
        (⟨⟨false, false, 0⟩, 0, [[97]], []⟩ : Subscribe).topics.length ∧
      Subscribe.Encode ⟨⟨false, false, 0⟩, 0, [[97]], []⟩ [] = .fault []) := by
  constructor
  · intro m sink hlen s
    obtain ⟨body, hb⟩ := payloadLoop_isSome m.topics m.topicsQos hlen
    simp only [Subscribe.Encode]
    rw [hb]
    exact writeMessage_ne_fault sink m.header _ s
  · exact ⟨by norm_num, rfl⟩

theorem subscribe_encode_index_bounds_witness :
    Subscribe.Encode ⟨⟨false, false, 0⟩, 7, [[97]], [1]⟩ [] ≠ .fault [] :=
  subscribe_encode_index_bounds.1 ⟨⟨false, false, 0⟩, 7, [[97]], [1]⟩ [] (by norm_num) []

end Mqtt
